import Mathlib

/-!
# Verification of the database-seeding pipeline

A shallow embedding of `src/server/seed-database.ts`: the catalog data
model, the synthetic-data generator with its JSON extraction and fallback
path, the summary builder, the index/collection provisioning, and the
batched load loop of `seedDatabase`, together with proofs of the
specification's testable properties.

External collaborators (the generative model, the embedding provider and
the document store) are modelled from the spec's interface descriptions:
the model call is an `Except` value, per-batch embedding+write success is
an environment flag, and the store is an explicit state record.
-/

/-- A JSON value, as produced by `JSON.parse`.  Objects keep their fields
in written order; numbers are modelled as integers (the generator's data
uses integer prices and ratings only). -/
inductive Json where
  | null : Json
  | bool : Bool → Json
  | num : Int → Json
  | str : String → Json
  | arr : List Json → Json
  | obj : List (String × Json) → Json
deriving Repr


/-- The `manufacturer_address` nested object of the `Item` interface. -/
structure ManufacturerAddress where
  street : String
  city : String
  state : String
  postal_code : String
  country : String
deriving DecidableEq, Repr

/-- The `prices` nested object of the `Item` interface. -/
structure Prices where
  full_price : Int
  sale_price : Int
deriving DecidableEq, Repr

/-- One element of the `user_reviews` array of the `Item` interface. -/
structure Review where
  review_date : String
  rating : Int
  comment : String
deriving DecidableEq, Repr

/-- The `Item` interface of `seed-database.ts`: one synthetic furniture
catalog record (the spec's `CatalogRecord`). -/
structure Item where
  item_id : String
  item_name : String
  item_description : String
  brand : String
  manufacturer_address : ManufacturerAddress
  prices : Prices
  categories : List String
  user_reviews : List Review
  notes : String
deriving DecidableEq, Repr

/-- `createItemSummary`: builds the searchable text summary of one item.
The source resolves a promise immediately with a value computed from the
argument alone, so it is a pure function of the item. -/
def createItemSummary (item : Item) : String :=
  let manufacturerDetails := "Made in " ++ item.manufacturer_address.country
  let categories := String.intercalate ", " item.categories
  let userReviews := String.intercalate " "
    (item.user_reviews.map (fun review =>
      "Rated " ++ toString review.rating ++ " on " ++ review.review_date
        ++ ": " ++ review.comment))
  let basicInfo := item.item_name ++ " " ++ item.item_description
    ++ " from the brand " ++ item.brand
  let price := "At full price it costs: " ++ toString item.prices.full_price
    ++ " USD, On sale it costs: " ++ toString item.prices.sale_price ++ " USD"
  let notes := item.notes
  basicInfo ++ ". Manufacturer: " ++ manufacturerDetails ++ ". Categories: "
    ++ categories ++ ". Reviews: " ++ userReviews ++ ". Price: " ++ price
    ++ ". Notes: " ++ notes

/-- `generateFallbackData`: the fixed, hardcoded record set returned when
parsing the model response fails. -/
def generateFallbackData : List Item :=
  [ { item_id := "item_001"
      item_name := "Modern Leather Sofa"
      item_description :=
        "A comfortable 3-seater leather sofa perfect for modern living rooms"
      brand := "ComfortPlus"
      manufacturer_address :=
        { street := "123 Factory Street"
          city := "Detroit"
          state := "Michigan"
          postal_code := "48201"
          country := "USA" }
      prices := { full_price := 1299, sale_price := 999 }
      categories := ["sofa", "living room", "leather"]
      user_reviews :=
        [ { review_date := "2024-01-15"
            rating := 5
            comment := "Excellent quality and very comfortable" } ]
      notes := "Available in black, brown, and white colors" },
    { item_id := "item_002"
      item_name := "Oak Dining Table"
      item_description :=
        "Solid oak dining table that seats 6 people comfortably"
      brand := "WoodCraft"
      manufacturer_address :=
        { street := "456 Lumber Ave"
          city := "Portland"
          state := "Oregon"
          postal_code := "97201"
          country := "USA" }
      prices := { full_price := 899, sale_price := 699 }
      categories := ["dining table", "dining room", "wood"]
      user_reviews :=
        [ { review_date := "2024-02-10"
            rating := 4
            comment := "Beautiful table, well made" } ]
      notes := "Comes with matching chairs available separately" } ]

/-- The JSON value a fallback item denotes at runtime: JavaScript erases
the `Item` interface, so the object literal and its JSON image coincide.
Fields appear in the interface's declaration order. -/
def itemToJson (item : Item) : Json :=
  Json.obj
    [ ("item_id", Json.str item.item_id),
      ("item_name", Json.str item.item_name),
      ("item_description", Json.str item.item_description),
      ("brand", Json.str item.brand),
      ("manufacturer_address", Json.obj
        [ ("street", Json.str item.manufacturer_address.street),
          ("city", Json.str item.manufacturer_address.city),
          ("state", Json.str item.manufacturer_address.state),
          ("postal_code", Json.str item.manufacturer_address.postal_code),
          ("country", Json.str item.manufacturer_address.country) ]),
      ("prices", Json.obj
        [ ("full_price", Json.num item.prices.full_price),
          ("sale_price", Json.num item.prices.sale_price) ]),
      ("categories", Json.arr (item.categories.map Json.str)),
      ("user_reviews", Json.arr (item.user_reviews.map (fun review =>
        Json.obj
          [ ("review_date", Json.str review.review_date),
            ("rating", Json.num review.rating),
            ("comment", Json.str review.comment) ]))),
      ("notes", Json.str item.notes) ]

/-- Property access `obj[k]` on a JSON object's field list. -/
def getField (fields : List (String × Json)) (k : String) : Option Json :=
  (fields.find? (fun p => p.1 == k)).map (fun p => p.2)

/-- A JSON value read as a string. -/
def asStr : Json → Option String
  | Json.str s => some s
  | _ => none

/-- A JSON value read as a number. -/
def asNum : Json → Option Int
  | Json.num n => some n
  | _ => none

/-- A JSON value read as an array. -/
def asArr : Json → Option (List Json)
  | Json.arr xs => some xs
  | _ => none

/-- A JSON value read as an object's field list. -/
def asObj : Json → Option (List (String × Json))
  | Json.obj fs => some fs
  | _ => none

/-- Reads a JSON value as a `manufacturer_address` object. -/
def jsonToAddress (j : Json) : Option ManufacturerAddress :=
  (asObj j).bind fun fs =>
  ((getField fs "street").bind asStr).bind fun street =>
  ((getField fs "city").bind asStr).bind fun city =>
  ((getField fs "state").bind asStr).bind fun state =>
  ((getField fs "postal_code").bind asStr).bind fun postal =>
  ((getField fs "country").bind asStr).bind fun country =>
  some { street := street, city := city, state := state,
         postal_code := postal, country := country }

/-- Reads a JSON value as a `prices` object. -/
def jsonToPrices (j : Json) : Option Prices :=
  (asObj j).bind fun fs =>
  ((getField fs "full_price").bind asNum).bind fun fp =>
  ((getField fs "sale_price").bind asNum).bind fun sp =>
  some { full_price := fp, sale_price := sp }

/-- Reads a JSON value as a review object. -/
def jsonToReview (j : Json) : Option Review :=
  (asObj j).bind fun fs =>
  ((getField fs "review_date").bind asStr).bind fun d =>
  ((getField fs "rating").bind asNum).bind fun r =>
  ((getField fs "comment").bind asStr).bind fun c =>
  some { review_date := d, rating := r, comment := c }

/-- Reads a JSON value as a fully-populated `Item`: every interface field
present with the declared shape.  This is the spec's CatalogRecord
invariant ("all fields present and non-null") made into a check — the
TypeScript cast `as Item[]` performs no such check. -/
def jsonToItem (j : Json) : Option Item :=
  (asObj j).bind fun fs =>
  ((getField fs "item_id").bind asStr).bind fun id =>
  ((getField fs "item_name").bind asStr).bind fun nm =>
  ((getField fs "item_description").bind asStr).bind fun de =>
  ((getField fs "brand").bind asStr).bind fun br =>
  ((getField fs "manufacturer_address").bind jsonToAddress).bind fun ad =>
  ((getField fs "prices").bind jsonToPrices).bind fun pr =>
  (((getField fs "categories").bind asArr).bind
      (fun l => l.mapM asStr)).bind fun cs =>
  (((getField fs "user_reviews").bind asArr).bind
      (fun l => l.mapM jsonToReview)).bind fun rs =>
  ((getField fs "notes").bind asStr).bind fun no =>
  some { item_id := id, item_name := nm, item_description := de, brand := br,
         manufacturer_address := ad, prices := pr, categories := cs,
         user_reviews := rs, notes := no }

/-- The CatalogRecord invariant on a raw generated record: all fields
present and non-null, with the shapes the `Item` interface declares. -/
def isValidItem (j : Json) : Bool :=
  (jsonToItem j).isSome

/-- `createItemSummary` applied to a raw generated record.  A record
that fails the shape check is modelled as a failed summary: on such a
record the source's nested accesses (`manufacturer_address.country`,
`categories.join`, `user_reviews.map`) throw at runtime. -/
def createItemSummaryJson (j : Json) : Option String :=
  (jsonToItem j).map createItemSummary

/-- JSON whitespace skipping (space, tab, line feed, carriage return). -/
def skipWs (cs : List Char) : List Char :=
  cs.dropWhile (fun c => c == ' ' || c == '\n' || c == '\t' || c == '\r')

/-- Translation of a character escaped by a backslash in a JSON string. -/
def escChar (c : Char) : Char :=
  if c = 'n' then '\n'
  else if c = 't' then '\t'
  else if c = 'r' then '\r'
  else c

/-- Reads a JSON string body (after the opening quote) up to the closing
quote, returning body and remaining input. -/
def parseStrBody : List Char → Option (List Char × List Char)
  | [] => none
  | '"' :: r => some ([], r)
  | '\\' :: e :: r =>
    (parseStrBody r).map (fun p => (escChar e :: p.1, p.2))
  | '\\' :: [] => none
  | c :: r => (parseStrBody r).map (fun p => (c :: p.1, p.2))

/-- Reads a run of decimal digits as a natural number. -/
def parseNatNum (cs : List Char) : Option (Nat × List Char) :=
  let ds := cs.takeWhile Char.isDigit
  if ds.isEmpty then none
  else some (ds.foldl (fun n c => n * 10 + (c.toNat - '0'.toNat)) 0,
             cs.dropWhile Char.isDigit)

/-- Reads a JSON number (integer; an optional leading minus sign). -/
def parseNumTok : List Char → Option (Int × List Char)
  | '-' :: r => (parseNatNum r).map (fun p => (-(p.1 : Int), p.2))
  | cs => (parseNatNum cs).map (fun p => ((p.1 : Int), p.2))

mutual
/-- Reads one JSON value.  The fuel argument bounds nesting depth; it is
chosen large enough in `parseJson` that exhaustion never fires on inputs
the fuel can reach. -/
def parseVal : Nat → List Char → Option (Json × List Char)
  | 0, _ => none
  | Nat.succ fuel, cs =>
    match skipWs cs with
    | 'n' :: 'u' :: 'l' :: 'l' :: r => some (Json.null, r)
    | 't' :: 'r' :: 'u' :: 'e' :: r => some (Json.bool true, r)
    | 'f' :: 'a' :: 'l' :: 's' :: 'e' :: r => some (Json.bool false, r)
    | '"' :: r =>
      (parseStrBody r).map (fun p => (Json.str (String.mk p.1), p.2))
    | '[' :: r =>
      (match skipWs r with
       | ']' :: r2 => some (Json.arr [], r2)
       | _ => (parseElems fuel r).map (fun p => (Json.arr p.1, p.2)))
    | '{' :: r =>
      (match skipWs r with
       | '}' :: r2 => some (Json.obj [], r2)
       | _ => (parseMembers fuel r).map (fun p => (Json.obj p.1, p.2)))
    | c :: r =>
      if c == '-' || c.isDigit
      then (parseNumTok (c :: r)).map (fun p => (Json.num p.1, p.2))
      else none
    | [] => none

/-- Reads the elements of a non-empty JSON array, up to and including the
closing bracket. -/
def parseElems : Nat → List Char → Option (List Json × List Char)
  | 0, _ => none
  | Nat.succ fuel, cs =>
    match parseVal fuel cs with
    | none => none
    | some (v, r) =>
      match skipWs r with
      | ',' :: r2 => (parseElems fuel r2).map (fun p => (v :: p.1, p.2))
      | ']' :: r2 => some ([v], r2)
      | _ => none

/-- Reads the members of a non-empty JSON object, up to and including the
closing brace. -/
def parseMembers : Nat → List Char → Option (List (String × Json) × List Char)
  | 0, _ => none
  | Nat.succ fuel, cs =>
    match skipWs cs with
    | '"' :: r =>
      (match parseStrBody r with
       | none => none
       | some (k, r1) =>
         match skipWs r1 with
         | ':' :: r2 =>
           (match parseVal fuel r2 with
            | none => none
            | some (v, r3) =>
              match skipWs r3 with
              | ',' :: r4 =>
                (parseMembers fuel r4).map
                  (fun p => ((String.mk k, v) :: p.1, p.2))
              | '}' :: r4 => some ([(String.mk k, v)], r4)
              | _ => none)
         | _ => none)
    | _ => none
end

/-- `JSON.parse`: parses a complete JSON document — one value, with
nothing but whitespace allowed after it.  Numbers are integers in this
model; the divergence (`JSON.parse` also accepts fractions and
exponents) is not exercised by any claim. -/
def parseJson (s : String) : Option Json :=
  match parseVal (2 * s.length + 2) s.data with
  | some (v, rest) => if (skipWs rest).isEmpty then some v else none
  | none => none

/-- `JSON.parse` followed by the source's expectation of an array
(`as Item[]`).  A non-array success is conflated with failure; the spans
this is applied to start with `[`, for which a successful parse is always
an array. -/
def parseJsonArray (s : String) : Option (List Json) :=
  match parseJson s with
  | some (Json.arr xs) => some xs
  | _ => none

/-- The match `jsonContent.match(/\x5b[\s\S]*\x5d/)`: the regex engine
finds the leftmost starting `[` from which the greedy `[\s\S]*` can reach
a `]`, i.e. the span from the first `[` that precedes the last `]` of the
string up to that last `]`.  Equivalently: drop everything before the
first `[`, then cut after the last `]` of what remains; no `]` left means
no match. -/
def extractArrayChars (cs : List Char) : Option (List Char) :=
  let afterOpen := cs.dropWhile (fun c => c != '[')
  let upToClose := (afterOpen.reverse.dropWhile (fun c => c != ']')).reverse
  if upToClose.isEmpty then none else some upToClose

/-- The same match, on the response string. -/
def extractArray (s : String) : Option String :=
  (extractArrayChars s.data).map String.mk

/-- The fallback record set as the JSON (runtime) values the pipeline
receives. -/
def fallbackJson : List Json :=
  generateFallbackData.map itemToJson

/-- `generateSyntheticData`, as a function of the outcome of
`llm.invoke(prompt)` (the generative-model collaborator of §6, an
external call modelled by its result).  The `await llm.invoke(prompt)`
sits *before* the `try` block, so a model-call failure propagates out of
the function; only the extraction, parse and cast steps inside the `try`
are recovered by the fallback. -/
def generateSyntheticData (invokeResult : Except Unit String) :
    Except Unit (List Json) :=
  match invokeResult with
  | Except.error e => Except.error e
  | Except.ok jsonContent =>
    Except.ok
      (match extractArray jsonContent with
       | none => fallbackJson            -- throw caught below: fallback
       | some span =>
         match parseJsonArray span with
         | none => fallbackJson          -- JSON.parse threw: fallback
         | some xs => xs)                -- returned unmodified (cast only)

/-- One vector field of a search-index definition. -/
structure VectorField where
  type : String
  path : String
  numDimensions : Nat
  similarity : String
deriving DecidableEq, Repr

/-- A search-index descriptor, as passed to `createSearchIndex`. -/
structure SearchIndex where
  name : String
  type : String
  fields : List VectorField
deriving DecidableEq, Repr

/-- The `vectorSearchIdx` descriptor built in `createVectorSearchIndex`. -/
def vectorSearchIdx : SearchIndex :=
  { name := "vector_index"
    type := "vectorSearch"
    fields := [ { type := "vector"
                  path := "embedding"
                  numDimensions := 768
                  similarity := "cosine" } ] }

/-- One document written by `MongoDBAtlasVectorSearch.fromDocuments`: the
summary text under `embedding_text` plus the original record as metadata
(the embedding vector itself comes from the external provider and plays
no role in any claim). -/
structure StoredDoc where
  embedding_text : String
  metadata : Json
deriving Repr

/-- The document store, modelled from the spec's §6 interface: the
collections of `inventory_database`, the search indexes on `items`, and
the documents of `items`. -/
structure StoreState where
  collections : List String
  indexes : List SearchIndex
  docs : List StoredDoc

/-- `setupDatabaseAndCollection`: list collections named `items`; create
the collection only when that listing is empty. -/
def setupDatabaseAndCollection (s : StoreState) : StoreState :=
  let collections := s.collections.filter (fun c => c == "items")
  if collections.length = 0 then
    { s with collections := s.collections ++ ["items"] }
  else s

/-- `createVectorSearchIndex`: `dropIndexes` (all indexes on the
collection removed, per the spec's description of the store interface),
then `createSearchIndex` with `vectorSearchIdx`.  The surrounding
try/catch only affects failing store calls, which the store model does
not produce. -/
def createVectorSearchIndex (s : StoreState) : StoreState :=
  let dropped : StoreState := { s with indexes := [] }
  { dropped with indexes := dropped.indexes ++ [vectorSearchIdx] }

/-- The batch slicing of the load loop: `syntheticData.slice(i, i + 3)`
for `i = 0, 3, 6, …` — i.e. successive chunks of `batchSize = 3`. -/
def batches : List Json → List (List Json)
  | [] => []
  | r :: rs => (r :: rs).take 3 :: batches ((r :: rs).drop 3)
termination_by l => l.length
decreasing_by simp [List.length_drop]; omega

/-- The `Promise.all(batch.map(...))` step: each record of the batch is
paired with its summary; one failing summary fails the whole batch. -/
def mapSummaries : List Json → Option (List StoredDoc)
  | [] => some []
  | r :: rs =>
    match createItemSummaryJson r with
    | none => none
    | some t =>
      match mapSummaries rs with
      | none => none
      | some ds => some ({ embedding_text := t, metadata := r } :: ds)

/-- The run environment: the outcomes of the external calls the pipeline
makes, per the spec's §6 interfaces — the one generative-model call, and
whether embedding+write (`fromDocuments`) succeeds for each batch
ordinal. -/
structure Env where
  invokeResult : Except Unit String
  embedBatchOk : Nat → Bool

/-- The load loop of `seedDatabase`, from `const batchSize = 3` on:
returns the final store state, the batches passed to `fromDocuments` in
call order, and whether the loop was aborted by a thrown error (caught by
the top-level handler). -/
def loadBatches (env : Env) :
    List Json → Nat → StoreState → StoreState × List (List Json) × Bool
  | [], _, s => (s, [], false)
  | r :: rs, i, s =>
    let batch := (r :: rs).take 3
    match mapSummaries batch with
    | none => (s, [], true)
    | some ds =>
      if env.embedBatchOk i then
        let out := loadBatches env ((r :: rs).drop 3) (i + 1)
          { s with docs := s.docs ++ ds }
        (out.1, batch :: out.2.1, out.2.2)
      else (s, [batch], true)
termination_by l => l.length
decreasing_by simp [List.length_drop]; omega

/-- The observable outcome of one `seedDatabase()` run. -/
structure RunResult where
  state : StoreState
  attempted : List (List Json)
  errorLogged : Bool
  closed : Bool

/-- `seedDatabase`: connect and ping (the store model is reachable),
provision collection and index, clear the collection, generate data, and
load it in batches.  Any thrown error is caught by the top-level handler
(`errorLogged`), and the `finally` block closes the client on every
path. -/
def seedDatabase (env : Env) (s0 : StoreState) : RunResult :=
  let s1 := setupDatabaseAndCollection s0
  let s2 := createVectorSearchIndex s1
  let s3 : StoreState := { s2 with docs := [] }   -- deleteMany({})
  match generateSyntheticData env.invokeResult with
  | Except.error _ =>
    { state := s3, attempted := [], errorLogged := true, closed := true }
  | Except.ok syntheticData =>
    let out := loadBatches env syntheticData 0 s3
    { state := out.1, attempted := out.2.1, errorLogged := out.2.2,
      closed := true }

/-! ## Properties of the summary builder and the provisioning steps -/

/-- C4: for every valid CatalogRecord, `summarize` is a total pure
deterministic function (it is a Lean function of the record alone):
the summary is assembled in the fixed order name + description + brand,
manufacturer country, comma-joined categories, reviews rendered as
`Rated r on d: c` joined by spaces, the price sentence, then the notes;
an empty review list yields an empty reviews segment, not a failure. -/
theorem createItemSummary_format (item : Item) :
    (createItemSummary item =
      item.item_name ++ " " ++ item.item_description ++ " from the brand "
        ++ item.brand
        ++ ". Manufacturer: " ++ ("Made in " ++ item.manufacturer_address.country)
        ++ ". Categories: " ++ String.intercalate ", " item.categories
        ++ ". Reviews: " ++ String.intercalate " "
            (item.user_reviews.map (fun review =>
              "Rated " ++ toString review.rating ++ " on " ++ review.review_date
                ++ ": " ++ review.comment))
        ++ ". Price: " ++ ("At full price it costs: "
            ++ toString item.prices.full_price
            ++ " USD, On sale it costs: " ++ toString item.prices.sale_price
            ++ " USD")
        ++ ". Notes: " ++ item.notes) ∧
    (item.user_reviews = [] →
      createItemSummary item =
        item.item_name ++ " " ++ item.item_description ++ " from the brand "
          ++ item.brand
          ++ ". Manufacturer: " ++ ("Made in " ++ item.manufacturer_address.country)
          ++ ". Categories: " ++ String.intercalate ", " item.categories
          ++ ". Reviews: " ++ ""
          ++ ". Price: " ++ ("At full price it costs: "
              ++ toString item.prices.full_price
              ++ " USD, On sale it costs: " ++ toString item.prices.sale_price
              ++ " USD")
          ++ ". Notes: " ++ item.notes) := by
  constructor
  · rfl
  · intro h
    simp only [createItemSummary, h, List.map_nil]
    rfl

/-- Witness for `createItemSummary_format`: the empty-review case at a
concrete record. -/
theorem createItemSummary_format_witness :
    createItemSummary
      { item_id := "i", item_name := "N", item_description := "D",
        brand := "B",
        manufacturer_address :=
          { street := "s", city := "c", state := "st", postal_code := "p",
            country := "USA" },
        prices := { full_price := 10, sale_price := 5 },
        categories := ["a", "b"], user_reviews := [], notes := "n" } =
      "N D from the brand B. Manufacturer: Made in USA. Categories: a, b. Reviews: . Price: At full price it costs: 10 USD, On sale it costs: 5 USD. Notes: n" :=
  (createItemSummary_format _).2 rfl

/-- C8: after any call to `createVectorSearchIndex` — whatever indexes
existed before — the collection carries exactly one index, the vector
index with field path `embedding`, dimension 768 and cosine similarity:
everything pre-existing is dropped first. -/
theorem ensureVectorIndex_exactly_one (s : StoreState) :
    (createVectorSearchIndex s).indexes =
      [ { name := "vector_index", type := "vectorSearch",
          fields := [ { type := "vector", path := "embedding",
                        numDimensions := 768, similarity := "cosine" } ] } ] :=
  rfl

/-- C9: `setupDatabaseAndCollection` is idempotent — a second call in
succession is a no-op (in particular it raises no error), and from a
state without the collection, exactly one `items` collection results. -/
theorem ensureCollection_idempotent (s : StoreState) :
    setupDatabaseAndCollection (setupDatabaseAndCollection s) =
      setupDatabaseAndCollection s ∧
    ("items" ∉ s.collections →
      ((setupDatabaseAndCollection s).collections.filter
          (fun c => c == "items")).length = 1) := by
  constructor
  · unfold setupDatabaseAndCollection
    by_cases h : (s.collections.filter (fun c => c == "items")).length = 0
    · have hnil : s.collections.filter (fun c => c == "items") = [] :=
        List.length_eq_zero.mp h
      simp [h, List.filter_append, hnil]
    · simp [h]
  · intro h
    have hnil : s.collections.filter (fun c => c == "items") = [] := by
      rw [List.filter_eq_nil_iff]
      intro a ha
      simp only [beq_iff_eq]
      intro hcontra
      exact h (hcontra ▸ ha)
    unfold setupDatabaseAndCollection
    simp [hnil, List.filter_append]

/-- Witness for `ensureCollection_idempotent`: provisioning twice from an
empty store. -/
theorem ensureCollection_idempotent_witness :
    ("items" ∉ (⟨[], [], []⟩ : StoreState).collections) ∧
    ((setupDatabaseAndCollection (⟨[], [], []⟩ : StoreState)).collections.filter
        (fun c => c == "items")).length = 1 :=
  ⟨by simp, (ensureCollection_idempotent ⟨[], [], []⟩).2 (by simp)⟩

/-! ## The generator's failure handling -/

/-- C1 (counterexample): when the model call itself fails, `generate`
does *not* recover with the fallback dataset — `await llm.invoke(prompt)`
sits before the `try`, so the error propagates out of
`generateSyntheticData`. -/
theorem generate_invoke_error_not_fallback :
    generateSyntheticData (Except.error ()) = Except.error () ∧
    (Except.error () : Except Unit (List Json)) ≠ Except.ok fallbackJson :=
  ⟨rfl, fun h => Except.noConfusion h⟩

/-- C1 (amended): a failing model call propagates out of `generate` and
is caught by `seedDatabase`'s top-level handler: the run aborts with no
records loaded (rather than continuing with fallback data), the error is
logged, and the connection is still closed. -/
theorem seedDatabase_invoke_error_aborts (env : Env) (s0 : StoreState)
    (h : env.invokeResult = Except.error ()) :
    (seedDatabase env s0).errorLogged = true ∧
    (seedDatabase env s0).state.docs = [] ∧
    (seedDatabase env s0).attempted = [] ∧
    (seedDatabase env s0).closed = true := by
  unfold seedDatabase
  rw [h]
  exact ⟨rfl, rfl, rfl, rfl⟩

/-- Witness for `seedDatabase_invoke_error_aborts`. -/
theorem seedDatabase_invoke_error_aborts_witness :
    ({ invokeResult := Except.error (), embedBatchOk := fun _ => true } :
        Env).invokeResult = Except.error () ∧
    (seedDatabase
        { invokeResult := Except.error (), embedBatchOk := fun _ => true }
        ⟨[], [], []⟩).errorLogged = true :=
  ⟨rfl,
   (seedDatabase_invoke_error_aborts
     { invokeResult := Except.error (), embedBatchOk := fun _ => true }
     ⟨[], [], []⟩ rfl).1⟩

/-- C7 (counterexample): a parsed record missing every required nested
object — the model answering `[{}]` — is returned by `generate` as-is:
nothing rejects or repairs it before it reaches the pipeline, and it
violates the CatalogRecord invariant. -/
theorem generate_returns_invalid_record :
    generateSyntheticData (Except.ok "[\x7b\x7d]") = Except.ok [Json.obj []] ∧
    isValidItem (Json.obj []) = false :=
  ⟨rfl, rfl⟩

/-- C7 (amended): only the fallback dataset is guaranteed to satisfy the
CatalogRecord invariant; whatever array the response parses to is
returned unmodified, with no validation or repair step between
`JSON.parse` and the pipeline. -/
theorem generate_performs_no_validation :
    fallbackJson.all isValidItem = true ∧
    (∀ resp span xs, extractArray resp = some span →
      parseJsonArray span = some xs →
      generateSyntheticData (Except.ok resp) = Except.ok xs) := by
  constructor
  · rfl
  · intro resp span xs h1 h2
    simp only [generateSyntheticData, h1, h2]

/-- Witness for `generate_performs_no_validation`. -/
theorem generate_performs_no_validation_witness :
    fallbackJson.all isValidItem = true ∧
    generateSyntheticData (Except.ok "[\x7b\x7d]") = Except.ok [Json.obj []] :=
  ⟨generate_performs_no_validation.1,
   generate_performs_no_validation.2 "[\x7b\x7d]" "[\x7b\x7d]" [Json.obj []] rfl rfl⟩

/-- C10: a response that is exactly the empty JSON array yields the empty
record sequence (not the fallback set); the load loop then performs zero
store writes and the run completes successfully with an empty collection
and a closed connection. -/
theorem empty_array_response_empty_run :
    generateSyntheticData (Except.ok "[]") = Except.ok [] ∧
    fallbackJson ≠ [] ∧
    (seedDatabase { invokeResult := Except.ok "[]",
                    embedBatchOk := fun _ => true } ⟨[], [], []⟩).attempted
      = [] ∧
    (seedDatabase { invokeResult := Except.ok "[]",
                    embedBatchOk := fun _ => true } ⟨[], [], []⟩).state.docs
      = [] ∧
    (seedDatabase { invokeResult := Except.ok "[]",
                    embedBatchOk := fun _ => true } ⟨[], [], []⟩).errorLogged
      = false ∧
    (seedDatabase { invokeResult := Except.ok "[]",
                    embedBatchOk := fun _ => true } ⟨[], [], []⟩).closed
      = true := by
  have hg : generateSyntheticData (Except.ok "[]") = Except.ok [] := rfl
  refine ⟨hg, fun h => by simp [fallbackJson, generateFallbackData] at h,
    ?_, ?_, ?_, ?_⟩ <;>
  simp [seedDatabase, hg, loadBatches]

/-! ## The bracket-extraction step -/

/-- `dropWhile` skips a whole first segment whose elements all satisfy
the predicate. -/
theorem dropWhile_append_all {α : Type} (p : α → Bool) :
    ∀ (l1 l2 : List α), (∀ a ∈ l1, p a = true) →
      List.dropWhile p (l1 ++ l2) = List.dropWhile p l2 := by
  intro l1 l2 h
  induction l1 with
  | nil => rfl
  | cons a l ih =>
    simp only [List.cons_append, List.dropWhile_cons, h a (by simp)]
    exact ih (fun x hx => h x (by simp [hx]))

/-- The head of a non-empty `dropWhile` result falsifies the predicate. -/
theorem dropWhile_head_false {α : Type} (p : α → Bool) :
    ∀ (l : List α) (x : α) (xs : List α),
      List.dropWhile p l = x :: xs → p x = false := by
  intro l
  induction l with
  | nil => intro x xs h; simp [List.dropWhile] at h
  | cons a l ih =>
    intro x xs h
    rw [List.dropWhile_cons] at h
    by_cases hp : p a = true
    · exact ih x xs (by rwa [if_pos hp] at h)
    · rw [if_neg hp] at h
      cases h
      exact eq_false_of_ne_true hp

/-- The regex finds exactly the span between the first `[` and the last
`]` when the response is prose, then a bracket-delimited body, then
prose: no `[` may occur before the body and no `]` after it. -/
theorem extractArrayChars_split (pre mid post : List Char)
    (h1 : '[' ∉ pre) (h2 : ']' ∉ post)
    (h3 : mid.head? = some '[') (h4 : mid.getLast? = some ']') :
    extractArrayChars (pre ++ mid ++ post) = some mid := by
  obtain ⟨mtl, hmid⟩ : ∃ tl, mid = '[' :: tl := by
    cases mid with
    | nil => simp at h3
    | cons c tl =>
      simp only [List.head?_cons, Option.some.injEq] at h3
      exact ⟨tl, by rw [h3]⟩
  have hpre : ∀ a ∈ pre, (a != '[') = true := by
    intro a ha
    simp only [bne_iff_ne, ne_eq]
    intro hc
    exact h1 (hc ▸ ha)
  have h5 : (pre ++ mid ++ post).dropWhile (fun c => c != '[') =
      mid ++ post := by
    rw [List.append_assoc, dropWhile_append_all _ _ _ hpre, hmid]
    simp [List.dropWhile_cons]
  have hpost : ∀ a ∈ post.reverse, (a != ']') = true := by
    intro a ha
    simp only [bne_iff_ne, ne_eq]
    intro hc
    exact h2 (hc ▸ (List.mem_reverse.mp ha))
  obtain ⟨c, ctl, hmr⟩ : ∃ c ctl, mid.reverse = c :: ctl := by
    cases hh : mid.reverse with
    | nil => rw [hmid] at hh; simp at hh
    | cons c ctl => exact ⟨c, ctl, rfl⟩
  have hc : c = ']' := by
    have := List.head?_reverse mid
    rw [hmr, h4] at this
    simpa using this
  have h6 : ((mid ++ post).reverse).dropWhile (fun c => c != ']') =
      mid.reverse := by
    rw [List.reverse_append, dropWhile_append_all _ _ _ hpost, hmr, hc]
    simp [List.dropWhile_cons]
  simp only [extractArrayChars]
  rw [h5, h6]
  simp [hmid]

/-- When the response contains no `[` followed (anywhere later) by a `]`,
the regex has no match. -/
theorem extractArrayChars_none (cs : List Char)
    (h : ¬ ∃ a b c : List Char, cs = a ++ '[' :: b ++ ']' :: c) :
    extractArrayChars cs = none := by
  simp only [extractArrayChars]
  by_contra hne
  set afterOpen := cs.dropWhile (fun c => c != '[') with hao
  set d := afterOpen.reverse.dropWhile (fun c => c != ']') with hd
  have hdne : d.reverse ≠ [] := by
    intro hnil
    apply hne
    rw [hnil]
    simp
  obtain ⟨e, etl, hde⟩ : ∃ e etl, d = e :: etl := by
    cases hh : d with
    | nil => rw [hh] at hdne; simp at hdne
    | cons e etl => exact ⟨e, etl, rfl⟩
  have he : e = ']' := by
    have := dropWhile_head_false _ _ _ _ (hd.symm ▸ hde)
    simpa [bne_iff_ne] using this
  have hmem : (']' : Char) ∈ afterOpen := by
    have hsub : d <:+ afterOpen.reverse := by
      rw [hd]
      exact List.dropWhile_suffix _
    have : e ∈ afterOpen.reverse := hsub.subset (by rw [hde]; simp)
    rw [he] at this
    exact List.mem_reverse.mp this
  obtain ⟨f, ftl, haf⟩ : ∃ f ftl, afterOpen = f :: ftl := by
    cases hh : afterOpen with
    | nil => rw [hh] at hmem; simp at hmem
    | cons f ftl => exact ⟨f, ftl, rfl⟩
  have hf : f = '[' := by
    have := dropWhile_head_false _ _ _ _ (hao.symm ▸ haf)
    simpa [bne_iff_ne] using this
  have hmem2 : (']' : Char) ∈ ftl := by
    rw [haf, hf] at hmem
    rcases List.mem_cons.mp hmem with hx | hx
    · exact absurd hx (by decide)
    · exact hx
  obtain ⟨b, c, hbc⟩ := List.append_of_mem hmem2
  apply h
  refine ⟨cs.takeWhile (fun c => c != '['), b, c, ?_⟩
  calc cs = cs.takeWhile (fun c => c != '[') ++ afterOpen :=
        (List.takeWhile_append_dropWhile _ _).symm
    _ = cs.takeWhile (fun c => c != '[') ++ '[' :: b ++ ']' :: c := by
        rw [haf, hf, hbc]
        simp

/-- C5: when the response contains no bracket-delimited array substring
(no `[` anywhere before a later `]`), the extraction throws, the catch
returns the fallback set exactly — and that set is non-empty, has at
least 2 records, and every record is fully populated (schema-valid). -/
theorem generate_fallback_on_no_array (s : String)
    (h : ¬ ∃ a b c : List Char, s.data = a ++ '[' :: b ++ ']' :: c) :
    generateSyntheticData (Except.ok s) = Except.ok fallbackJson ∧
    fallbackJson ≠ [] ∧ 2 ≤ fallbackJson.length ∧
    fallbackJson.all isValidItem = true := by
  have he : extractArray s = none := by
    simp [extractArray, extractArrayChars_none s.data h]
  refine ⟨by simp only [generateSyntheticData, he], ?_, by decide, rfl⟩
  intro hc
  simp [fallbackJson, generateFallbackData] at hc

/-- Witness for `generate_fallback_on_no_array`: a purely textual
response. -/
theorem generate_fallback_on_no_array_witness :
    generateSyntheticData (Except.ok "The model returned no list today.") =
      Except.ok fallbackJson ∧
    fallbackJson ≠ [] ∧ 2 ≤ fallbackJson.length ∧
    fallbackJson.all isValidItem = true := by
  apply generate_fallback_on_no_array
  rintro ⟨a, b, c, hsplit⟩
  have hm : ('[' : Char) ∈ a ++ '[' :: b ++ ']' :: c := by simp
  rw [← hsplit] at hm
  exact absurd hm (by decide)

/-- C6: for a response made of prose, then one bracket-delimited span,
then prose, `generate` extracts exactly that span (the prose before it
contains no `[`, the prose after it no `]`), and when the span parses as
a JSON array, `generate` returns that array unmodified — no fields
injected or removed. -/
theorem generate_extracts_array (pre mid post : List Char) (xs : List Json)
    (h1 : '[' ∉ pre) (h2 : ']' ∉ post)
    (h3 : mid.head? = some '[') (h4 : mid.getLast? = some ']')
    (h5 : parseJsonArray (String.mk mid) = some xs) :
    extractArray (String.mk (pre ++ mid ++ post)) = some (String.mk mid) ∧
    generateSyntheticData (Except.ok (String.mk (pre ++ mid ++ post))) =
      Except.ok xs := by
  have he : extractArray (String.mk (pre ++ mid ++ post)) =
      some (String.mk mid) := by
    simp only [extractArray]
    rw [extractArrayChars_split pre mid post h1 h2 h3 h4]
    rfl
  exact ⟨he, by simp only [generateSyntheticData, he, h5]⟩

set_option maxRecDepth 16384 in
/-- Witness for `generate_extracts_array`: prose around one complete,
schema-valid item array. -/
theorem generate_extracts_array_witness :
    extractArray (String.mk ("Sure, here are the items: ".data ++
        "[\x7b\"item_id\":\"item_010\",\"item_name\":\"Walnut Desk\",\"item_description\":\"A compact walnut writing desk\",\"brand\":\"WoodCraft\",\"manufacturer_address\":\x7b\"street\":\"9 Mill Rd\",\"city\":\"Portland\",\"state\":\"Oregon\",\"postal_code\":\"97201\",\"country\":\"USA\"\x7d,\"prices\":\x7b\"full_price\":499,\"sale_price\":399\x7d,\"categories\":[\"desk\",\"office\"],\"user_reviews\":[\x7b\"review_date\":\"2024-03-01\",\"rating\":5,\"comment\":\"Sturdy and handsome\"\x7d],\"notes\":\"Ships flat\"\x7d]".data ++
        " Let me know if you need more.".data)) =
      some (String.mk "[\x7b\"item_id\":\"item_010\",\"item_name\":\"Walnut Desk\",\"item_description\":\"A compact walnut writing desk\",\"brand\":\"WoodCraft\",\"manufacturer_address\":\x7b\"street\":\"9 Mill Rd\",\"city\":\"Portland\",\"state\":\"Oregon\",\"postal_code\":\"97201\",\"country\":\"USA\"\x7d,\"prices\":\x7b\"full_price\":499,\"sale_price\":399\x7d,\"categories\":[\"desk\",\"office\"],\"user_reviews\":[\x7b\"review_date\":\"2024-03-01\",\"rating\":5,\"comment\":\"Sturdy and handsome\"\x7d],\"notes\":\"Ships flat\"\x7d]".data) ∧
    generateSyntheticData (Except.ok (String.mk
        ("Sure, here are the items: ".data ++
        "[\x7b\"item_id\":\"item_010\",\"item_name\":\"Walnut Desk\",\"item_description\":\"A compact walnut writing desk\",\"brand\":\"WoodCraft\",\"manufacturer_address\":\x7b\"street\":\"9 Mill Rd\",\"city\":\"Portland\",\"state\":\"Oregon\",\"postal_code\":\"97201\",\"country\":\"USA\"\x7d,\"prices\":\x7b\"full_price\":499,\"sale_price\":399\x7d,\"categories\":[\"desk\",\"office\"],\"user_reviews\":[\x7b\"review_date\":\"2024-03-01\",\"rating\":5,\"comment\":\"Sturdy and handsome\"\x7d],\"notes\":\"Ships flat\"\x7d]".data ++
        " Let me know if you need more.".data))) =
      Except.ok [itemToJson
        ⟨"item_010", "Walnut Desk", "A compact walnut writing desk",
         "WoodCraft", ⟨"9 Mill Rd", "Portland", "Oregon", "97201", "USA"⟩,
         ⟨499, 399⟩, ["desk", "office"],
         [⟨"2024-03-01", 5, "Sturdy and handsome"⟩], "Ships flat"⟩] :=
  generate_extracts_array
    "Sure, here are the items: ".data
    "[\x7b\"item_id\":\"item_010\",\"item_name\":\"Walnut Desk\",\"item_description\":\"A compact walnut writing desk\",\"brand\":\"WoodCraft\",\"manufacturer_address\":\x7b\"street\":\"9 Mill Rd\",\"city\":\"Portland\",\"state\":\"Oregon\",\"postal_code\":\"97201\",\"country\":\"USA\"\x7d,\"prices\":\x7b\"full_price\":499,\"sale_price\":399\x7d,\"categories\":[\"desk\",\"office\"],\"user_reviews\":[\x7b\"review_date\":\"2024-03-01\",\"rating\":5,\"comment\":\"Sturdy and handsome\"\x7d],\"notes\":\"Ships flat\"\x7d]".data
    " Let me know if you need more.".data
    [itemToJson
      ⟨"item_010", "Walnut Desk", "A compact walnut writing desk",
       "WoodCraft", ⟨"9 Mill Rd", "Portland", "Oregon", "97201", "USA"⟩,
       ⟨499, 399⟩, ["desk", "office"],
       [⟨"2024-03-01", 5, "Sturdy and handsome"⟩], "Ships flat"⟩]
    (by decide) (by decide) rfl rfl rfl

/-! ## The batched load loop -/

/-- Unfolding of `batches` on a non-empty list. -/
theorem batches_cons (r : Json) (rs : List Json) :
    batches (r :: rs) = (r :: rs).take 3 :: batches ((r :: rs).drop 3) := by
  simp [batches]

/-- Concatenating the batches in order restores the generated sequence:
no record is duplicated, none is lost, and the order is preserved. -/
theorem batches_flatten (l : List Json) : (batches l).flatten = l := by
  have key : ∀ n (l : List Json), l.length ≤ n → (batches l).flatten = l := by
    intro n
    induction n with
    | zero =>
      intro l hl
      have : l = [] := List.eq_nil_of_length_eq_zero (Nat.le_zero.mp hl)
      simp [this, batches]
    | succ n ih =>
      intro l hl
      cases l with
      | nil => simp [batches]
      | cons r rs =>
        rw [batches_cons, List.flatten_cons,
          ih ((r :: rs).drop 3) (by simp [List.length_drop] at hl ⊢; omega)]
        exact List.take_append_drop 3 (r :: rs)
  exact key l.length l le_rfl

/-- The number of batches is `⌈N / 3⌉`, i.e. `(N + 2) / 3` in natural
division. -/
theorem batches_length (l : List Json) :
    (batches l).length = (l.length + 2) / 3 := by
  have key : ∀ n (l : List Json), l.length ≤ n →
      (batches l).length = (l.length + 2) / 3 := by
    intro n
    induction n with
    | zero =>
      intro l hl
      have : l = [] := List.eq_nil_of_length_eq_zero (Nat.le_zero.mp hl)
      simp [this, batches]
    | succ n ih =>
      intro l hl
      cases l with
      | nil => simp [batches]
      | cons r rs =>
        rw [batches_cons, List.length_cons,
          ih ((r :: rs).drop 3) (by simp [List.length_drop] at hl ⊢; omega)]
        simp only [List.length_drop, List.length_cons]
        omega
  exact key l.length l le_rfl

/-- On a batch of valid records, the summary step succeeds. -/
theorem mapSummaries_isSome (l : List Json)
    (h : ∀ r ∈ l, isValidItem r = true) :
    ∃ ds, mapSummaries l = some ds := by
  induction l with
  | nil => exact ⟨[], rfl⟩
  | cons r rs ih =>
    have hr : (createItemSummaryJson r).isSome = true := by
      have := h r (by simp)
      simp only [isValidItem] at this
      simp [createItemSummaryJson, Option.isSome_map]
      exact this
    obtain ⟨t, ht⟩ := Option.isSome_iff_exists.mp hr
    obtain ⟨ds, hds⟩ := ih (fun x hx => h x (by simp [hx]))
    refine ⟨{ embedding_text := t, metadata := r } :: ds, ?_⟩
    simp [mapSummaries, ht, hds]

/-- The documents a batch writes carry exactly the batch's records as
metadata, in order. -/
theorem mapSummaries_metadata :
    ∀ (l : List Json) (ds : List StoredDoc), mapSummaries l = some ds →
      ds.map (fun d => d.metadata) = l := by
  intro l
  induction l with
  | nil =>
    intro ds h
    simp only [mapSummaries, Option.some.injEq] at h
    simp [← h]
  | cons r rs ih =>
    intro ds h
    simp only [mapSummaries] at h
    cases ht : createItemSummaryJson r with
    | none => rw [ht] at h; cases h
    | some t =>
      rw [ht] at h
      cases hds : mapSummaries rs with
      | none => rw [hds] at h; cases h
      | some ds0 =>
        rw [hds] at h
        cases h
        simp [ih ds0 hds]

/-- Master lemma for a fully successful load: the loop writes exactly
the batch decomposition, in order, and never aborts. -/
theorem loadBatches_all_ok :
    ∀ (n : Nat) (l : List Json), l.length ≤ n →
    ∀ (env : Env) (i : Nat) (s : StoreState),
      (∀ r ∈ l, isValidItem r = true) →
      (∀ j, env.embedBatchOk j = true) →
      (loadBatches env l i s).2.1 = batches l ∧
      (loadBatches env l i s).2.2 = false ∧
      (loadBatches env l i s).1.docs.map (fun d => d.metadata) =
        s.docs.map (fun d => d.metadata) ++ l := by
  intro n
  induction n with
  | zero =>
    intro l hl env i s hval hok
    have hnil : l = [] := List.eq_nil_of_length_eq_zero (Nat.le_zero.mp hl)
    subst hnil
    simp [loadBatches, batches]
  | succ n ih =>
    intro l hl env i s hval hok
    cases l with
    | nil => simp [loadBatches, batches]
    | cons r rs =>
      obtain ⟨ds, hds⟩ := mapSummaries_isSome ((r :: rs).take 3)
        (fun x hx => hval x (List.mem_of_mem_take hx))
      have hmeta := mapSummaries_metadata _ _ hds
      have hrec := ih ((r :: rs).drop 3)
        (by simp only [List.length_drop, List.length_cons] at hl ⊢; omega)
        env (i + 1) { s with docs := s.docs ++ ds }
        (fun x hx => hval x (List.mem_of_mem_drop hx)) hok
      simp only [loadBatches, hds, hok i, if_true]
      refine ⟨?_, hrec.2.1, ?_⟩
      · rw [batches_cons, hrec.1]
      · rw [hrec.2.2]
        simp only [List.map_append, hmeta]
        rw [List.append_assoc, List.take_append_drop]

/-- Master lemma for a load failing at batch `k` (0-based, counting from
the loop's starting ordinal `i`): the loop attempts exactly batches
`0..k`, aborts, and the store keeps exactly the records of the batches
before `k`. -/
theorem loadBatches_fail_at :
    ∀ (n : Nat) (l : List Json), l.length ≤ n →
    ∀ (env : Env) (i k : Nat) (s : StoreState),
      (∀ r ∈ l, isValidItem r = true) →
      (∀ j, j < k → env.embedBatchOk (i + j) = true) →
      env.embedBatchOk (i + k) = false →
      k < (batches l).length →
      (loadBatches env l i s).2.1 = (batches l).take (k + 1) ∧
      (loadBatches env l i s).2.2 = true ∧
      (loadBatches env l i s).1.docs.map (fun d => d.metadata) =
        s.docs.map (fun d => d.metadata) ++ l.take (3 * k) := by
  intro n
  induction n with
  | zero =>
    intro l hl env i k s hval hpre hkf hlt
    have hnil : l = [] := List.eq_nil_of_length_eq_zero (Nat.le_zero.mp hl)
    subst hnil
    simp [batches] at hlt
  | succ n ih =>
    intro l hl env i k s hval hpre hkf hlt
    cases l with
    | nil => simp [batches] at hlt
    | cons r rs =>
      obtain ⟨ds, hds⟩ := mapSummaries_isSome ((r :: rs).take 3)
        (fun x hx => hval x (List.mem_of_mem_take hx))
      have hmeta := mapSummaries_metadata _ _ hds
      cases k with
      | zero =>
        have hk0 : env.embedBatchOk i = false := by simpa using hkf
        simp only [loadBatches, hds, hk0, if_false]
        refine ⟨?_, rfl, by simp⟩
        rw [batches_cons]
        simp
      | succ k =>
        have hok0 : env.embedBatchOk i = true := by
          have := hpre 0 (Nat.succ_pos k)
          simpa using this
        have hrec := ih ((r :: rs).drop 3)
          (by simp only [List.length_drop, List.length_cons] at hl ⊢; omega)
          env (i + 1) k { s with docs := s.docs ++ ds }
          (fun x hx => hval x (List.mem_of_mem_drop hx))
          (fun j hj => by
            have := hpre (j + 1) (by omega)
            rwa [show i + (j + 1) = i + 1 + j by omega] at this)
          (by rwa [show i + 1 + k = i + (k + 1) by omega])
          (by
            rw [batches_cons, List.length_cons] at hlt
            omega)
        simp only [loadBatches, hds, hok0, if_true]
        refine ⟨?_, hrec.2.1, ?_⟩
        · rw [hrec.1, batches_cons]
          exact List.take_succ_cons.symm
        · rw [hrec.2.2]
          simp only [List.map_append, hmeta]
          rw [List.append_assoc,
            show 3 * (k + 1) = 3 + 3 * k by omega,
            List.take_add]

/-- C2: with batch size 3, a fully successful load issues exactly
`⌈N / 3⌉` store writes, the written batches concatenate to exactly the
input sequence (each record exactly once, no duplication, no loss), and
the batches are written in generation order — they are precisely the
successive slices of the input. -/
theorem load_batching (env : Env) (records : List Json) (s : StoreState)
    (hval : ∀ r ∈ records, isValidItem r = true)
    (hok : ∀ j, env.embedBatchOk j = true) :
    (loadBatches env records 0 s).2.1.length = (records.length + 2) / 3 ∧
    (loadBatches env records 0 s).2.1.flatten = records ∧
    (loadBatches env records 0 s).2.1 = batches records ∧
    (loadBatches env records 0 s).2.2 = false := by
  obtain ⟨h1, h2, _⟩ :=
    loadBatches_all_ok records.length records le_rfl env 0 s hval hok
  exact ⟨by rw [h1, batches_length], by rw [h1, batches_flatten], h1, h2⟩

/-- Witness for `load_batching`: four valid records load as two batches
of sizes 3 and 1. -/
theorem load_batching_witness :
    (∀ r ∈ fallbackJson ++ fallbackJson, isValidItem r = true) ∧
    (loadBatches
        { invokeResult := Except.ok "", embedBatchOk := fun _ => true }
        (fallbackJson ++ fallbackJson) 0 ⟨[], [], []⟩).2.1.length =
      ((fallbackJson ++ fallbackJson).length + 2) / 3 ∧
    (loadBatches
        { invokeResult := Except.ok "", embedBatchOk := fun _ => true }
        (fallbackJson ++ fallbackJson) 0 ⟨[], [], []⟩).2.1.flatten =
      fallbackJson ++ fallbackJson ∧
    (loadBatches
        { invokeResult := Except.ok "", embedBatchOk := fun _ => true }
        (fallbackJson ++ fallbackJson) 0 ⟨[], [], []⟩).2.2 = false := by
  have h := load_batching
    { invokeResult := Except.ok "", embedBatchOk := fun _ => true }
    (fallbackJson ++ fallbackJson) ⟨[], [], []⟩ (by decide) (fun j => rfl)
  exact ⟨by decide, h.1, h.2.1, h.2.2.2⟩

/-- C3: when embedding+write fails on batch `k` (0-based) and all earlier
batches succeed, the collection afterwards contains exactly the records
of the batches before `k`, no batch after `k` is attempted, the error is
caught by the top-level handler (the process does not crash), and the
connection is still closed. -/
theorem load_failure_keeps_prefix (env : Env) (s0 : StoreState)
    (records : List Json) (k : Nat)
    (hgen : generateSyntheticData env.invokeResult = Except.ok records)
    (hval : ∀ r ∈ records, isValidItem r = true)
    (hpre : ∀ j, j < k → env.embedBatchOk j = true)
    (hkf : env.embedBatchOk k = false)
    (hlt : k < (batches records).length) :
    (seedDatabase env s0).state.docs.map (fun d => d.metadata) =
      records.take (3 * k) ∧
    (seedDatabase env s0).attempted = (batches records).take (k + 1) ∧
    (seedDatabase env s0).errorLogged = true ∧
    (seedDatabase env s0).closed = true := by
  have h := loadBatches_fail_at records.length records le_rfl env 0 k
    ({ createVectorSearchIndex (setupDatabaseAndCollection s0) with
        docs := [] })
    hval
    (fun j hj => by rw [Nat.zero_add]; exact hpre j hj)
    (by rw [Nat.zero_add]; exact hkf) hlt
  have hrun : seedDatabase env s0 =
      { state := (loadBatches env records 0
          { createVectorSearchIndex (setupDatabaseAndCollection s0) with
              docs := [] }).1,
        attempted := (loadBatches env records 0
          { createVectorSearchIndex (setupDatabaseAndCollection s0) with
              docs := [] }).2.1,
        errorLogged := (loadBatches env records 0
          { createVectorSearchIndex (setupDatabaseAndCollection s0) with
              docs := [] }).2.2,
        closed := true } := by
    unfold seedDatabase
    rw [hgen]
  rw [hrun]
  refine ⟨?_, h.1, h.2.1, rfl⟩
  have := h.2.2
  simpa using this

/-- Witness for `load_failure_keeps_prefix`: the very first batch fails,
so the collection stays empty and only that batch was attempted. -/
theorem load_failure_keeps_prefix_witness :
    (seedDatabase
        { invokeResult := Except.ok "oops", embedBatchOk := fun _ => false }
        ⟨[], [], []⟩).state.docs.map (fun d => d.metadata) =
      fallbackJson.take (3 * 0) ∧
    (seedDatabase
        { invokeResult := Except.ok "oops", embedBatchOk := fun _ => false }
        ⟨[], [], []⟩).attempted = (batches fallbackJson).take (0 + 1) ∧
    (seedDatabase
        { invokeResult := Except.ok "oops", embedBatchOk := fun _ => false }
        ⟨[], [], []⟩).errorLogged = true ∧
    (seedDatabase
        { invokeResult := Except.ok "oops", embedBatchOk := fun _ => false }
        ⟨[], [], []⟩).closed = true :=
  load_failure_keeps_prefix
    { invokeResult := Except.ok "oops", embedBatchOk := fun _ => false }
    ⟨[], [], []⟩ fallbackJson 0 rfl (by decide)
    (fun j hj => absurd hj (Nat.not_lt_zero j)) rfl
    (by rw [batches_length]; decide)
